import Mathlib

/-!
Shallow embedding of the patient / appointment scheduling core of the
repository (models `PacienteBuilder`, `Consulta`, `ConsultaBuilder` and the
in-memory `ConsultaController`).  Calendar dates are embedded as explicit
year/month/day records, times of day as minutes since midnight, and the
current clock as a day number plus minutes since midnight.  All definitions
are computable and follow the JavaScript source line by line.
-/

namespace Desafio

/-! ## Error codes (src/utils/Error.js) -/

namespace ErrorCodes

def ERR_CPF_INVALIDO : Nat := 100
def ERR_PACIENTE_NAO_CADASTRADO : Nat := 105
def ERR_PACIENTE_AGENDADO : Nat := 106
def ERR_DATA_CONSULTA_INVALIDA : Nat := 200
def ERR_DATA_CONSULTA_ANTERIOR : Nat := 201
def ERR_DATA_CONSULTA_HOJE_FECHADO : Nat := 202
def ERR_HORA_INVALIDA : Nat := 203
def ERR_HORA_HORARIO_INVALIDO : Nat := 204
def ERR_HORA_FINAL_ANTES_INICIAL : Nat := 205
def ERR_HORA_PASSADA : Nat := 206
def ERR_HORA_HORARIO_FECHADO : Nat := 207
def ERR_HORA_SEM_DATA_CONSULTA : Nat := 208
def ERR_HORA_SEM_HORA_INICIAL : Nat := 209
def ERR_CONSULTA_INCOMPLETA : Nat := 210
def ERR_CONSULTA_NAO_ENCONTRADA : Nat := 211
def ERR_CONSULTA_SOBREPOSTA : Nat := 212
def ERR_CONSULTA_DUPLA : Nat := 213

end ErrorCodes

/-! ## Results

JavaScript methods return objects of the shape `{success, error?}`; a
successful `build` additionally carries the constructed entity. -/

inductive RResult where
  | ok : RResult
  | err (code : Nat) : RResult
deriving DecidableEq, Repr

/-! ## Digits and text parsing

Luxon's `fromFormat` with tokens `dd`, `MM`, `yyyy`, `HH`, `mm` matches the
exact number of digits of each token and validates the calendar ranges, so a
fixed-width digit parser is a faithful embedding. -/

/-- Numeric value of a digit character (JS `Number(cpf[i])` on a digit). -/
def charDigit (c : Char) : Nat := c.toNat - 48

/-- Two fixed-width digit characters as a number (a luxon 2-digit token). -/
def parse2 (a b : Char) : Option Nat :=
  if a.isDigit ∧ b.isDigit then some (10 * charDigit a + charDigit b) else none

/-- Four fixed-width digit characters as a number (luxon token `yyyy`). -/
def parse4 (a b c d : Char) : Option Nat :=
  if a.isDigit ∧ b.isDigit ∧ c.isDigit ∧ d.isDigit then
    some (1000 * charDigit a + 100 * charDigit b + 10 * charDigit c + charDigit d)
  else none

/-- Fixed-width parse of a `HHmm` text: hour `0..23` and minute `0..59`. -/
def parseHHmm (s : String) : Option (Nat × Nat) :=
  match s.data with
  | [h1, h2, m1, m2] =>
    match parse2 h1 h2, parse2 m1 m2 with
    | some h, some m => if h ≤ 23 ∧ m ≤ 59 then some (h, m) else none
    | _, _ => none
  | _ => none

/-! ## Calendar dates -/

/-- A calendar date (luxon `DateTime` truncated to its date part). -/
structure Date where
  year : Int
  month : Nat
  day : Nat
deriving DecidableEq, Repr

/-- Gregorian leap year. -/
def isLeap (y : Int) : Bool := (y % 4 = 0 ∧ y % 100 ≠ 0) ∨ y % 400 = 0

/-- Days in a month; luxon validates day-of-month against this. -/
def daysInMonth (y : Int) (m : Nat) : Nat :=
  if m = 2 then (if isLeap y then 29 else 28)
  else if m = 4 ∨ m = 6 ∨ m = 9 ∨ m = 11 then 30
  else 31

/-- Parse of a `dd/MM/yyyy` text into a valid calendar date. -/
def parseData (s : String) : Option Date :=
  match s.data with
  | [d1, d2, sl1, mo1, mo2, sl2, y1, y2, y3, y4] =>
    if sl1 = '/' ∧ sl2 = '/' then
      match parse2 d1 d2, parse2 mo1 mo2, parse4 y1 y2 y3 y4 with
      | some d, some mo, some y =>
        if 1 ≤ mo ∧ mo ≤ 12 ∧ 1 ≤ d ∧ d ≤ daysInMonth (Int.ofNat y) mo then
          some ⟨Int.ofNat y, mo, d⟩
        else none
      | _, _, _ => none
    else none
  | _ => none

/-- Day number of a civil date (days since 1970-01-01, standard civil
calendar algorithm); luxon day differences between two dates at midnight
equal the difference of these numbers. -/
def Date.toDays (dt : Date) : Int :=
  let y : Int := if dt.month ≤ 2 then dt.year - 1 else dt.year
  let era : Int := (if 0 ≤ y then y else y - 399) / 400
  let yoe : Int := y - era * 400
  let mp : Int := if 2 < dt.month then (dt.month : Int) - 3 else (dt.month : Int) + 9
  let doy : Int := (153 * mp + 2) / 5 + (dt.day : Int) - 1
  let doe : Int := yoe * 365 + yoe / 4 - yoe / 100 + doy
  era * 146097 + doe - 719468

/-- A date and a time of day combined into one instant, counted in minutes. -/
def instantOf (d : Date) (m : Nat) : Int := d.toDays * 1440 + (m : Int)

/-- The current clock: today's day number and the minutes elapsed today. -/
structure Now where
  day : Int
  min : Nat
deriving DecidableEq, Repr

/-- The current clock as one instant in minutes. -/
def Now.instant (n : Now) : Int := n.day * 1440 + (n.min : Int)

/-! ## CPF validation (PacienteBuilder) -/

namespace PacienteBuilder

/-- JS regex check `/^\d+$/` (at least one character, all digits). -/
def isNumerico (l : List Char) : Bool := !l.isEmpty && l.all Char.isDigit

/-- The first weighted checksum sum of a CPF: digits `0..8` with weights
`10` down to `2`. -/
def somaPonderada (l : List Char) : Nat :=
  (List.range 9).foldl (fun s i => s + (10 - i) * charDigit (l.getD i '0')) 0

/-- The unweighted sum of the first nine digits of a CPF. -/
def somaSimples (l : List Char) : Nat :=
  (List.range 9).foldl (fun s i => s + charDigit (l.getD i '0')) 0

/-- Check digit expected from a checksum sum reduced modulo 11: a remainder
at most 1 yields 0, otherwise 11 minus the remainder. -/
def digitoEsperado (soma : Nat) : Nat :=
  if soma % 11 ≤ 1 then 0 else 11 - soma % 11

/-- `PacienteBuilder.#validaCodigoCpf`: length and digit check, then the two
check-digit tests written exactly as the source's early-return conditions
(`!cpf`, JS falsiness of the empty string, is subsumed by the length test). -/
def validaCodigoCpf (cpf : String) : Bool :=
  let l := cpf.data
  if l.length ≠ 11 ∨ isNumerico l = false then false
  else
    let digitoJ := charDigit (l.getD 9 '0')
    let digitoK := charDigit (l.getD 10 '0')
    let soma := somaPonderada l
    let resto := soma % 11
    if (resto ≤ 1 ∧ digitoJ ≠ 0) ∨ (1 < resto ∧ 11 - resto ≠ digitoJ) then false
    else
      let soma2 := soma + 2 * digitoJ + somaSimples l
      let resto2 := soma2 % 11
      if (resto2 ≤ 1 ∧ digitoK ≠ 0) ∨ (1 < resto2 ∧ 11 - resto2 ≠ digitoK) then false
      else true

/-- `PacienteBuilder.validaCpf` just forwards to the private checksum test. -/
def validaCpf (cpf : String) : Bool := validaCodigoCpf cpf

end PacienteBuilder

/-! ## Consulta (src/models/Consulta.js, in-memory variant; times of day in
minutes since midnight) -/

structure Consulta where
  cpf_paciente : String
  data_consulta : Date
  hora_inicial : Nat
  hora_final : Nat
deriving DecidableEq, Repr

/-- `Consulta.isSobreposta`: two appointments overlap unless their dates
differ or their half-open time intervals are disjoint. -/
def Consulta.isSobreposta (self other : Consulta) : Bool :=
  if ¬ self.data_consulta = other.data_consulta then false
  else if self.hora_inicial ≥ other.hora_final ∨ self.hora_final ≤ other.hora_inicial then
    false
  else true

/-- The appointment's date combined with its start time into one instant
(the source formats both to an ISO text and reparses it, an identity on the
stored values). -/
def Consulta.dataHoraInicial (c : Consulta) : Int :=
  instantOf c.data_consulta c.hora_inicial

/-- `Consulta.isConsultaPassada` (combined-instant variant, the one the
specification designates as authoritative): true iff the combined instant is
at or before the current clock. -/
def Consulta.isConsultaPassada (now : Now) (c : Consulta) : Bool :=
  if c.dataHoraInicial ≤ now.instant then true else false

/-! ## ConsultaBuilder (src/models/ConsultaBuilder.js)

The JS object mutates private fields; the embedding passes the state
explicitly and returns the result together with the new state.  The current
clock (`DateTime.now()`) is an explicit parameter. -/

structure ConsultaBuilder where
  cpf_paciente : Option String
  data_consulta : Option Date
  hora_inicial : Option Nat
  hora_final : Option Nat
deriving DecidableEq, Repr

namespace ConsultaBuilder

/-- The builder before any setter ran (JS private fields start undefined). -/
def empty : ConsultaBuilder := ⟨none, none, none, none⟩

/-- `ConsultaBuilder.setCpf` stores the identifier unconditionally. -/
def setCpf (b : ConsultaBuilder) (cpf : String) : RResult × ConsultaBuilder :=
  (.ok, { b with cpf_paciente := some cpf })

/-- `ConsultaBuilder.#isAberto`: business hours by hour of day, both bounds
inclusive. -/
def isAberto (hour : Nat) : Bool := 8 ≤ hour ∧ hour ≤ 19

/-- `ConsultaBuilder.setDataConsulta`: parse `dd/MM/yyyy`, reject a date
before today, reject today when the current hour is outside business
hours. -/
def setDataConsulta (b : ConsultaBuilder) (now : Now) (data : String) :
    RResult × ConsultaBuilder :=
  match parseData data with
  | none => (.err ErrorCodes.ERR_DATA_CONSULTA_INVALIDA, b)
  | some d =>
    if d.toDays - now.day < 0 then (.err ErrorCodes.ERR_DATA_CONSULTA_ANTERIOR, b)
    else if d.toDays - now.day = 0 ∧ isAberto (now.min / 60) = false then
      (.err ErrorCodes.ERR_DATA_CONSULTA_HOJE_FECHADO, b)
    else (.ok, { b with data_consulta := some d })

/-- `ConsultaBuilder.setHoraInicial`: requires a date; parses `HHmm`; checks
the 15-minute grid, the business hours (also rejecting hour 19 and later for
a start time), and, when the date is today, that the time has not passed. -/
def setHoraInicial (b : ConsultaBuilder) (now : Now) (s : String) :
    RResult × ConsultaBuilder :=
  match b.data_consulta with
  | none => (.err ErrorCodes.ERR_HORA_SEM_DATA_CONSULTA, b)
  | some d =>
    match parseHHmm s with
    | none => (.err ErrorCodes.ERR_HORA_INVALIDA, b)
    | some (h, m) =>
      if ¬ m % 15 = 0 then (.err ErrorCodes.ERR_HORA_HORARIO_INVALIDO, b)
      else if isAberto h = false ∨ 19 ≤ h then (.err ErrorCodes.ERR_HORA_HORARIO_FECHADO, b)
      else if d.toDays = now.day ∧ 60 * h + m < now.min then
        (.err ErrorCodes.ERR_HORA_PASSADA, b)
      else (.ok, { b with hora_inicial := some (60 * h + m) })

/-- `ConsultaBuilder.setHoraFinal`: requires a date and a start time; parses
`HHmm`; checks the grid and the business hours (the generic check only, so
any hour up to and including 19 passes); rejects an end at or before the
start. -/
def setHoraFinal (b : ConsultaBuilder) (s : String) : RResult × ConsultaBuilder :=
  match b.data_consulta with
  | none => (.err ErrorCodes.ERR_HORA_SEM_DATA_CONSULTA, b)
  | some _ =>
    match b.hora_inicial with
    | none => (.err ErrorCodes.ERR_HORA_SEM_HORA_INICIAL, b)
    | some hi =>
      match parseHHmm s with
      | none => (.err ErrorCodes.ERR_HORA_INVALIDA, b)
      | some (h, m) =>
        if ¬ m % 15 = 0 then (.err ErrorCodes.ERR_HORA_HORARIO_INVALIDO, b)
        else if isAberto h = false then (.err ErrorCodes.ERR_HORA_HORARIO_FECHADO, b)
        else if 60 * h + m ≤ hi then (.err ErrorCodes.ERR_HORA_FINAL_ANTES_INICIAL, b)
        else (.ok, { b with hora_final := some (60 * h + m) })

/-- `ConsultaBuilder.clear` resets the date and both times; the source does
not touch the stored patient identifier. -/
def clear (b : ConsultaBuilder) : ConsultaBuilder :=
  { b with data_consulta := none, hora_inicial := none, hora_final := none }

/-- Result of `ConsultaBuilder.build`: the consulta on success. -/
inductive BuildResult where
  | ok (c : Consulta) : BuildResult
  | err (code : Nat) : BuildResult
deriving DecidableEq, Repr

/-- `ConsultaBuilder.build`: fails while any field is unset (the empty
string is falsy in JS, so an empty identifier also counts as unset);
otherwise constructs the consulta and clears the builder. -/
def build (b : ConsultaBuilder) : BuildResult × ConsultaBuilder :=
  match b.cpf_paciente, b.data_consulta, b.hora_inicial, b.hora_final with
  | some cpf, some d, some hi, some hf =>
    if cpf = "" then (.err ErrorCodes.ERR_CONSULTA_INCOMPLETA, b)
    else (.ok ⟨cpf, d, hi, hf⟩, clear b)
  | _, _, _, _ => (.err ErrorCodes.ERR_CONSULTA_INCOMPLETA, b)

end ConsultaBuilder

/-! ## ConsultaController (src/controllers/ConsultaController.js, the
in-memory `Map`-keyed store) -/

/-- The controller's `Map<string, Consulta[]>` as an association list in
insertion order. -/
abbrev Store : Type := List (String × List Consulta)

namespace ConsultaController

/-- `Map.get`: the list stored under a patient identifier. -/
def storeLookup (s : Store) (cpf : String) : Option (List Consulta) :=
  match s with
  | [] => none
  | (k, l) :: rest => if k = cpf then some l else storeLookup rest cpf

/-- `Map.set` of an empty list for a missing key followed by `push`: appends
the consulta to its patient's list, creating the entry at the end of the map
when absent. -/
def storeAdd (s : Store) (c : Consulta) : Store :=
  match s with
  | [] => [(c.cpf_paciente, [c])]
  | (k, l) :: rest =>
    if k = c.cpf_paciente then (k, l ++ [c]) :: rest else (k, l) :: storeAdd rest c

/-- Replace the list stored under a key (in-place mutation of the array the
map holds). -/
def storeSet (s : Store) (cpf : String) (l' : List Consulta) : Store :=
  match s with
  | [] => []
  | (k, l) :: rest => if k = cpf then (k, l') :: rest else (k, l) :: storeSet rest cpf l'

/-- `splice` at the first index satisfying the predicate; `none` when the
loop falls through. -/
def removeFirst (p : Consulta → Bool) : List Consulta → Option (List Consulta)
  | [] => none
  | c :: rest => if p c then some rest else (removeFirst p rest).map (c :: ·)

/-- `ConsultaController.hasAgendamentosFuturos`: some stored appointment of
the patient is not past. -/
def hasAgendamentosFuturos (s : Store) (now : Now) (cpf : String) : Bool :=
  match storeLookup s cpf with
  | some l => l.any (fun c => ! c.isConsultaPassada now)
  | none => false

/-- `ConsultaController.isSobreposta`: the candidate overlaps some stored
appointment (iteration over every patient's list). -/
def isSobreposta (s : Store) (c : Consulta) : Bool :=
  s.any (fun kl => kl.2.any (fun c' => c.isSobreposta c'))

/-- `ConsultaController.addConsulta` after a successful `build`: reject a
second future appointment of the patient, then reject overlaps, then
store. -/
def addConsulta (s : Store) (now : Now) (c : Consulta) : RResult × Store :=
  if hasAgendamentosFuturos s now c.cpf_paciente then
    (.err ErrorCodes.ERR_CONSULTA_DUPLA, s)
  else if isSobreposta s c then (.err ErrorCodes.ERR_CONSULTA_SOBREPOSTA, s)
  else (.ok, storeAdd s c)

/-- The text a stored time of day prints as under luxon format `HHmm`. -/
def formatHHmm (m : Nat) : String :=
  (if m / 60 < 10 then "0" ++ toString (m / 60) else toString (m / 60)) ++
    (if m % 60 < 10 then "0" ++ toString (m % 60) else toString (m % 60))

/-- The text a stored date prints as under luxon format `dd/MM/yyyy`. -/
def formatData (d : Date) : String :=
  (if d.day < 10 then "0" ++ toString d.day else toString d.day) ++ "/" ++
    (if d.month < 10 then "0" ++ toString d.month else toString d.month) ++ "/" ++
    (if d.year.toNat < 10 then "000" ++ toString d.year.toNat
     else if d.year.toNat < 100 then "00" ++ toString d.year.toNat
     else if d.year.toNat < 1000 then "0" ++ toString d.year.toNat
     else toString d.year.toNat)

/-- The loop condition of `removeConsulta`: the stored appointment prints
back exactly as the two input texts. -/
def matchesConsulta (data hora : String) (c : Consulta) : Bool :=
  formatData c.data_consulta = data ∧ formatHHmm c.hora_inicial = hora

/-- Parse of the concatenation `data + hora` with format `dd/MM/yyyyHHmm`
into one instant. -/
def parseDataHora (data hora : String) : Option Int :=
  match parseData data, parseHHmm hora with
  | some d, some (h, m) => some (instantOf d (60 * h + m))
  | _, _ => none

/-- `ConsultaController.removeConsulta`: unknown patient key fails; an
instant not strictly in the future fails (an unparsable text gives luxon an
invalid instant whose comparison is false, so it falls through to the
search); otherwise the first stored appointment printing back as the inputs
is spliced out, and a fruitless search fails. -/
def removeConsulta (s : Store) (now : Now) (cpf data hora : String) :
    RResult × Store :=
  match storeLookup s cpf with
  | none => (.err ErrorCodes.ERR_PACIENTE_NAO_CADASTRADO, s)
  | some l =>
    let buscar : RResult × Store :=
      match removeFirst (matchesConsulta data hora) l with
      | some l' => (.ok, storeSet s cpf l')
      | none => (.err ErrorCodes.ERR_CONSULTA_NAO_ENCONTRADA, s)
    match parseDataHora data hora with
    | some t => if t - now.instant ≤ 0 then (.err ErrorCodes.ERR_CONSULTA_NAO_ENCONTRADA, s)
                else buscar
    | none => buscar

end ConsultaController

/-! ## State invariant of the store (claim C3) -/

/-- Every appointment the store holds, in iteration order. -/
def allConsultas (s : Store) : List Consulta := (s.map Prod.snd).flatten

/-- How many stored appointments of one patient are not yet past. -/
def futureCount (s : Store) (n : Now) (cpf : String) : Nat :=
  (allConsultas s).countP fun c => decide (c.cpf_paciente = cpf) && ! c.isConsultaPassada n

/-- Every appointment sits in the list of its own patient identifier. -/
def wellKeyed (s : Store) : Prop :=
  ∀ p ∈ s, ∀ c ∈ p.2, c.cpf_paciente = p.1

/-- The map's keys are pairwise distinct (a JS `Map` property). -/
def keysNodup (s : Store) : Prop := (s.map Prod.fst).Nodup

/-- Stores produced by a sequence of successful `addConsulta` and
`removeConsulta` operations starting from the empty store, under a clock
that never runs backwards; the `Now` index is the clock of the last
operation. -/
inductive Reachable : Now → Store → Prop where
  | init (n : Now) : Reachable n []
  | add {n n' : Now} {s s' : Store} {c : Consulta} :
      Reachable n s → n.instant ≤ n'.instant →
      ConsultaController.addConsulta s n' c = (RResult.ok, s') → Reachable n' s'
  | remove {n n' : Now} {s s' : Store} {cpf data hora : String} :
      Reachable n s → n.instant ≤ n'.instant →
      ConsultaController.removeConsulta s n' cpf data hora = (RResult.ok, s') →
      Reachable n' s'

/-! # Theorems -/

/-- C2: `isSobreposta` decides intersection of the half-open intervals
`[startTime, endTime)`: it is true exactly when the dates coincide and each
interval starts before the other ends; in particular, on one same date,
`[09:00,09:30)` and `[09:30,10:00)` do not overlap while `[09:00,10:00)` and
`[09:30,09:45)` do. -/
theorem isSobreposta_spec :
    (∀ a b : Consulta,
      a.isSobreposta b = true ↔
        a.data_consulta = b.data_consulta ∧
          a.hora_inicial < b.hora_final ∧ b.hora_inicial < a.hora_final)
    ∧ (Consulta.mk "1" ⟨2030, 1, 1⟩ 540 570).isSobreposta
        (Consulta.mk "2" ⟨2030, 1, 1⟩ 570 600) = false
    ∧ (Consulta.mk "1" ⟨2030, 1, 1⟩ 540 600).isSobreposta
        (Consulta.mk "2" ⟨2030, 1, 1⟩ 570 585) = true := by
  refine ⟨fun a b => ?_, by decide, by decide⟩
  unfold Consulta.isSobreposta
  split_ifs with h1 h2
  · constructor
    · intro h
      exact h.elim
    · intro h
      obtain ⟨-, hb, hc⟩ := h
      exact absurd h2 (by omega)
  · constructor
    · intro h
      refine ⟨h1, ?_⟩
      omega
    · intro h
      rfl
  · constructor
    · intro h
      exact h.elim
    · intro h
      exact absurd h.1 h1

/-- C4: the combined-instant `isConsultaPassada` (the variant the
specification designates as authoritative) returns true exactly when the
instant combining the appointment's date with its start time is at or before
the current clock instant. -/
theorem isConsultaPassada_spec (n : Now) (c : Consulta) :
    c.isConsultaPassada n = true ↔
      instantOf c.data_consulta c.hora_inicial ≤ n.instant := by
  unfold Consulta.isConsultaPassada Consulta.dataHoraInicial
  split_ifs with h
  · simp [h]
  · simp [h]

/-- C10: every 11-character repetition of one decimal digit passes the CPF
checksum validator. -/
theorem validaCpf_repdigit (d : Fin 10) :
    PacienteBuilder.validaCpf (String.mk (List.replicate 11 (Char.ofNat (48 + d.val)))) =
      true := by
  revert d
  decide

/-- A source check-digit condition rejects exactly when the digit differs
from the expected check digit of the sum. -/
theorem digito_cond_iff (soma dig : Nat) :
    (¬ ((soma % 11 ≤ 1 ∧ dig ≠ 0) ∨ (1 < soma % 11 ∧ 11 - soma % 11 ≠ dig))) ↔
      dig = PacienteBuilder.digitoEsperado soma := by
  unfold PacienteBuilder.digitoEsperado
  have h : soma % 11 < 11 := Nat.mod_lt _ (by norm_num)
  split_ifs with hle <;> omega

/-- C1: on an 11-character all-digit string, `validaCpf` accepts exactly
when the 10th character equals the check digit expected from the weighted
sum of the first 9 digits (weights 10 down to 2, reduced modulo 11 with a
remainder of at most 1 giving 0 and otherwise 11 minus the remainder) and
the 11th character equals the check digit expected, the same way, from that
weighted sum plus twice the first check digit plus the unweighted sum of the
first 9 digits; any string of a different length or with a non-digit
character is rejected. -/
theorem validaCpf_spec (s : String) :
    (s.data.length = 11 → s.data.all Char.isDigit = true →
      (PacienteBuilder.validaCpf s = true ↔
        charDigit (s.data.getD 9 '0') =
          PacienteBuilder.digitoEsperado (PacienteBuilder.somaPonderada s.data) ∧
        charDigit (s.data.getD 10 '0') =
          PacienteBuilder.digitoEsperado
            (PacienteBuilder.somaPonderada s.data +
              2 * charDigit (s.data.getD 9 '0') + PacienteBuilder.somaSimples s.data)))
    ∧ ((¬ s.data.length = 11 ∨ s.data.all Char.isDigit = false) →
        PacienteBuilder.validaCpf s = false) := by
  unfold PacienteBuilder.validaCpf PacienteBuilder.validaCodigoCpf
  constructor
  · intro hlen hall
    have hne : s.data ≠ [] := by
      intro h
      rw [h] at hlen
      exact absurd hlen (by norm_num)
    have hnum : PacienteBuilder.isNumerico s.data = true := by
      unfold PacienteBuilder.isNumerico
      rw [hall, List.isEmpty_eq_false.mpr hne]
      rfl
    rw [if_neg (by simp [hlen, hnum])]
    dsimp only
    split_ifs with h1 h2
    · constructor
      · intro h
        exact h.elim
      · intro h
        exact absurd ((digito_cond_iff _ _).mpr h.1) (not_not.mpr h1)
    · constructor
      · intro h
        exact h.elim
      · intro h
        exact absurd ((digito_cond_iff _ _).mpr h.2) (not_not.mpr h2)
    · simp only [true_iff]
      exact ⟨(digito_cond_iff _ _).mp h1, (digito_cond_iff _ _).mp h2⟩
  · intro h
    have hc : s.data.length ≠ 11 ∨ PacienteBuilder.isNumerico s.data = false := by
      rcases h with h | h
      · exact Or.inl h
      · right
        unfold PacienteBuilder.isNumerico
        rw [h, Bool.and_false]
    rw [if_pos hc]


/-- C1 witness: the checksum characterization evaluated at the valid
identifier the repository's own test data uses and at a short string. -/
theorem validaCpf_spec_witness :
    PacienteBuilder.validaCpf "57219947038" = true ∧
    PacienteBuilder.validaCpf "123" = false :=
  ⟨((validaCpf_spec "57219947038").1 (by decide) (by decide)).mpr (by decide),
   (validaCpf_spec "123").2 (by decide)⟩

/-- C5: the builder does not re-check the already-accepted end time when the
start time is set again, so a sequence of successful setter calls that
re-sets the start time after the end time lets `build` succeed with
`hora_inicial` at 10:00 and `hora_final` at 09:30, violating the
`startTime < endTime` invariant the specification states for every built
appointment (clock fixed at 1970-01-01 10:00). -/
theorem build_violates_start_before_end :
    (ConsultaBuilder.setCpf ConsultaBuilder.empty "57219947038").1 = RResult.ok ∧
    (ConsultaBuilder.setDataConsulta
      (ConsultaBuilder.setCpf ConsultaBuilder.empty "57219947038").2 ⟨0, 600⟩
      "01/01/2030").1 = RResult.ok ∧
    (ConsultaBuilder.setHoraInicial
      (ConsultaBuilder.setDataConsulta
        (ConsultaBuilder.setCpf ConsultaBuilder.empty "57219947038").2 ⟨0, 600⟩
        "01/01/2030").2 ⟨0, 600⟩ "0900").1 = RResult.ok ∧
    (ConsultaBuilder.setHoraFinal
      (ConsultaBuilder.setHoraInicial
        (ConsultaBuilder.setDataConsulta
          (ConsultaBuilder.setCpf ConsultaBuilder.empty "57219947038").2 ⟨0, 600⟩
          "01/01/2030").2 ⟨0, 600⟩ "0900").2 "0930").1 = RResult.ok ∧
    (ConsultaBuilder.setHoraInicial
      (ConsultaBuilder.setHoraFinal
        (ConsultaBuilder.setHoraInicial
          (ConsultaBuilder.setDataConsulta
            (ConsultaBuilder.setCpf ConsultaBuilder.empty "57219947038").2 ⟨0, 600⟩
            "01/01/2030").2 ⟨0, 600⟩ "0900").2 "0930").2 ⟨0, 600⟩ "1000").1 =
      RResult.ok ∧
    (ConsultaBuilder.build
      (ConsultaBuilder.setHoraInicial
        (ConsultaBuilder.setHoraFinal
          (ConsultaBuilder.setHoraInicial
            (ConsultaBuilder.setDataConsulta
              (ConsultaBuilder.setCpf ConsultaBuilder.empty "57219947038").2 ⟨0, 600⟩
              "01/01/2030").2 ⟨0, 600⟩ "0900").2 "0930").2 ⟨0, 600⟩ "1000").2).1 =
      ConsultaBuilder.BuildResult.ok ⟨"57219947038", ⟨2030, 1, 1⟩, 600, 570⟩ ∧
    ¬ (600 : Nat) < 570 := by
  decide

/-- C7: `setHoraInicial` fails in cascade order — missing date, unparsable
`HHmm` text, minutes off the 15-minute grid, business-hours violation (not
open, or hour at least 19), past time on today's date — and succeeds,
storing the time, in every remaining case. -/
theorem setHoraInicial_spec (b : ConsultaBuilder) (now : Now) (s : String) :
    (b.data_consulta = none →
      b.setHoraInicial now s = (.err ErrorCodes.ERR_HORA_SEM_DATA_CONSULTA, b))
  ∧ (∀ d, b.data_consulta = some d → parseHHmm s = none →
      b.setHoraInicial now s = (.err ErrorCodes.ERR_HORA_INVALIDA, b))
  ∧ (∀ d h m, b.data_consulta = some d → parseHHmm s = some (h, m) →
      ¬ m % 15 = 0 →
      b.setHoraInicial now s = (.err ErrorCodes.ERR_HORA_HORARIO_INVALIDO, b))
  ∧ (∀ d h m, b.data_consulta = some d → parseHHmm s = some (h, m) →
      m % 15 = 0 → (ConsultaBuilder.isAberto h = false ∨ 19 ≤ h) →
      b.setHoraInicial now s = (.err ErrorCodes.ERR_HORA_HORARIO_FECHADO, b))
  ∧ (∀ d h m, b.data_consulta = some d → parseHHmm s = some (h, m) →
      m % 15 = 0 → ConsultaBuilder.isAberto h = true → h < 19 →
      d.toDays = now.day → 60 * h + m < now.min →
      b.setHoraInicial now s = (.err ErrorCodes.ERR_HORA_PASSADA, b))
  ∧ (∀ d h m, b.data_consulta = some d → parseHHmm s = some (h, m) →
      m % 15 = 0 → ConsultaBuilder.isAberto h = true → h < 19 →
      ¬ (d.toDays = now.day ∧ 60 * h + m < now.min) →
      b.setHoraInicial now s = (.ok, { b with hora_inicial := some (60 * h + m) })) := by
  refine ⟨fun hd => ?_, fun d hd hp => ?_, fun d h m hd hp hg => ?_,
    fun d h m hd hp hg hc => ?_, fun d h m hd hp hg ha h19 hdia hmin => ?_,
    fun d h m hd hp hg ha h19 hnp => ?_⟩
  · simp only [ConsultaBuilder.setHoraInicial, hd]
  · simp only [ConsultaBuilder.setHoraInicial, hd, hp]
  · simp only [ConsultaBuilder.setHoraInicial, hd, hp]
    rw [if_pos hg]
  · simp only [ConsultaBuilder.setHoraInicial, hd, hp]
    rw [if_neg (not_not_intro hg), if_pos hc]
  · simp only [ConsultaBuilder.setHoraInicial, hd, hp]
    rw [if_neg (not_not_intro hg),
      if_neg (by simp only [ha, not_or]; exact ⟨by simp, by omega⟩),
      if_pos ⟨hdia, hmin⟩]
  · simp only [ConsultaBuilder.setHoraInicial, hd, hp]
    rw [if_neg (not_not_intro hg),
      if_neg (by simp only [ha, not_or]; exact ⟨by simp, by omega⟩),
      if_neg hnp]

/-- C7 witness: with the date set to a future open day and the clock at
1970-01-01 10:00, the text 0905 fails with the off-grid error and the text
0900 is accepted and stored. -/
theorem setHoraInicial_spec_witness :
    ConsultaBuilder.setHoraInicial
        ⟨some "57219947038", some ⟨2030, 1, 1⟩, none, none⟩ ⟨0, 600⟩ "0905" =
      (.err ErrorCodes.ERR_HORA_HORARIO_INVALIDO,
        ⟨some "57219947038", some ⟨2030, 1, 1⟩, none, none⟩) ∧
    ConsultaBuilder.setHoraInicial
        ⟨some "57219947038", some ⟨2030, 1, 1⟩, none, none⟩ ⟨0, 600⟩ "0900" =
      (.ok, ⟨some "57219947038", some ⟨2030, 1, 1⟩, some 540, none⟩) :=
  ⟨(setHoraInicial_spec ⟨some "57219947038", some ⟨2030, 1, 1⟩, none, none⟩
      ⟨0, 600⟩ "0905").2.2.1 ⟨2030, 1, 1⟩ 9 5 (by decide) (by decide) (by decide),
   (setHoraInicial_spec ⟨some "57219947038", some ⟨2030, 1, 1⟩, none, none⟩
      ⟨0, 600⟩ "0900").2.2.2.2.2 ⟨2030, 1, 1⟩ 9 0 (by decide) (by decide) (by decide)
      (by decide) (by decide) (by decide)⟩

/-- C6 counterexample: the claim says every end time strictly after 19:00,
such as 19:30, is rejected with the closed-hours error; but with a future
date and a 09:00 start already set, `setHoraFinal` accepts the text 1930
because the business-hours check only compares the hour against the
inclusive bound 19. -/
theorem setHoraFinal_aceita_1930 :
    (ConsultaBuilder.setHoraFinal
      ⟨some "57219947038", some ⟨2030, 1, 1⟩, some 540, none⟩ "1930").1 =
      RResult.ok := by
  decide

/-- C6 (amended): with a date and a start time set and a parseable on-grid
end-time text, `setHoraFinal` succeeds only when the end hour lies within
business hours, where `isAberto` accepts hour 8 through hour 19 inclusive
(so 19:00 and any quarter up to 19:45 pass); every end time whose hour falls
outside that range is rejected with the closed-hours error; and an accepted
end beyond the start time is stored. -/
theorem setHoraFinal_horario_spec (b : ConsultaBuilder) (d : Date) (hi : Nat)
    (s : String) (h m : Nat) (hd : b.data_consulta = some d)
    (hhi : b.hora_inicial = some hi) (hp : parseHHmm s = some (h, m))
    (hg : m % 15 = 0) :
    (ConsultaBuilder.isAberto h = true ↔ 8 ≤ h ∧ h ≤ 19)
  ∧ ((b.setHoraFinal s).1 = RResult.ok → ConsultaBuilder.isAberto h = true)
  ∧ (ConsultaBuilder.isAberto h = false →
      b.setHoraFinal s = (.err ErrorCodes.ERR_HORA_HORARIO_FECHADO, b))
  ∧ (ConsultaBuilder.isAberto h = true → hi < 60 * h + m →
      b.setHoraFinal s = (.ok, { b with hora_final := some (60 * h + m) })) := by
  refine ⟨by simp [ConsultaBuilder.isAberto], ?_, fun hf => ?_, fun ht hlt => ?_⟩
  · simp only [ConsultaBuilder.setHoraFinal, hd, hhi, hp]
    rw [if_neg (not_not_intro hg)]
    cases ha : ConsultaBuilder.isAberto h
    · rw [if_pos rfl]
      intro hok
      exact absurd hok (by simp)
    · intro _
      rfl
  · simp only [ConsultaBuilder.setHoraFinal, hd, hhi, hp]
    rw [if_neg (not_not_intro hg), if_pos hf]
  · simp only [ConsultaBuilder.setHoraFinal, hd, hhi, hp]
    rw [if_neg (not_not_intro hg), if_neg (by simp [ht]), if_neg (by omega)]

/-- C6 witness: the amended hours rule evaluated with date and 09:00 start
set: an end of 20:00 is rejected as out of hours, an end of exactly 19:00 is
accepted and stored. -/
theorem setHoraFinal_horario_spec_witness :
    ConsultaBuilder.setHoraFinal
        ⟨some "57219947038", some ⟨2030, 1, 1⟩, some 540, none⟩ "2000" =
      (.err ErrorCodes.ERR_HORA_HORARIO_FECHADO,
        ⟨some "57219947038", some ⟨2030, 1, 1⟩, some 540, none⟩) ∧
    ConsultaBuilder.setHoraFinal
        ⟨some "57219947038", some ⟨2030, 1, 1⟩, some 540, none⟩ "1900" =
      (.ok, ⟨some "57219947038", some ⟨2030, 1, 1⟩, some 540, some 1140⟩) :=
  ⟨(setHoraFinal_horario_spec ⟨some "57219947038", some ⟨2030, 1, 1⟩, some 540, none⟩
      ⟨2030, 1, 1⟩ 540 "2000" 20 0 (by decide) (by decide) (by decide)
      (by decide)).2.2.1 (by decide),
   (setHoraFinal_horario_spec ⟨some "57219947038", some ⟨2030, 1, 1⟩, some 540, none⟩
      ⟨2030, 1, 1⟩ 540 "1900" 19 0 (by decide) (by decide) (by decide)
      (by decide)).2.2.2 (by decide) (by decide)⟩

/-- C8: `removeConsulta` fails with the unregistered-patient error when the
store holds no entry for the patient; fails with the not-found error when
the instant combining the given date and start time is not strictly in the
future, even when a matching row exists; otherwise splices out the first
(hence, when unique, the unique) stored appointment printing back as the
given date and start time and succeeds; and fails with the not-found error
when no stored appointment matches — leaving the store unchanged in every
failure case. -/
theorem removeConsulta_spec (s : Store) (now : Now) (cpf data hora : String) :
    (ConsultaController.storeLookup s cpf = none →
      ConsultaController.removeConsulta s now cpf data hora =
        (.err ErrorCodes.ERR_PACIENTE_NAO_CADASTRADO, s))
  ∧ (∀ l t, ConsultaController.storeLookup s cpf = some l →
      ConsultaController.parseDataHora data hora = some t → t ≤ now.instant →
      ConsultaController.removeConsulta s now cpf data hora =
        (.err ErrorCodes.ERR_CONSULTA_NAO_ENCONTRADA, s))
  ∧ (∀ l, ConsultaController.storeLookup s cpf = some l →
      (∀ t, ConsultaController.parseDataHora data hora = some t → now.instant < t) →
      ConsultaController.removeFirst (ConsultaController.matchesConsulta data hora) l =
        none →
      ConsultaController.removeConsulta s now cpf data hora =
        (.err ErrorCodes.ERR_CONSULTA_NAO_ENCONTRADA, s))
  ∧ (∀ l l', ConsultaController.storeLookup s cpf = some l →
      (∀ t, ConsultaController.parseDataHora data hora = some t → now.instant < t) →
      ConsultaController.removeFirst (ConsultaController.matchesConsulta data hora) l =
        some l' →
      ConsultaController.removeConsulta s now cpf data hora =
        (.ok, ConsultaController.storeSet s cpf l')) := by
  refine ⟨fun hl => ?_, fun l t hl hp ht => ?_, fun l hl hfut hrf => ?_,
    fun l l' hl hfut hrf => ?_⟩
  · simp only [ConsultaController.removeConsulta, hl]
  · simp only [ConsultaController.removeConsulta, hl, hp]
    rw [if_pos (by omega)]
  · simp only [ConsultaController.removeConsulta, hl, hrf]
    cases hp : ConsultaController.parseDataHora data hora
    · rfl
    · dsimp only
      split <;> rfl
  · simp only [ConsultaController.removeConsulta, hl, hrf]
    cases hp : ConsultaController.parseDataHora data hora
    · rfl
    · dsimp only
      have hlt := hfut _ hp
      rw [if_neg (by omega)]

/-- C8 witness: with one stored 09:00–09:30 appointment on 2030-01-01 and
the clock at 1970-01-01 00:00, removing by the matching texts succeeds and
empties the patient's list; the theorem applied at the concrete store. -/
theorem removeConsulta_spec_witness :
    ConsultaController.removeConsulta
        [("57219947038", [⟨"57219947038", ⟨2030, 1, 1⟩, 540, 570⟩])] ⟨0, 0⟩
        "57219947038" "01/01/2030" "0900" =
      (.ok, [("57219947038", [])]) :=
  (removeConsulta_spec
      [("57219947038", [⟨"57219947038", ⟨2030, 1, 1⟩, 540, 570⟩])] ⟨0, 0⟩
      "57219947038" "01/01/2030" "0900").2.2.2
    [⟨"57219947038", ⟨2030, 1, 1⟩, 540, 570⟩] [] (by decide)
    (fun t ht => by
      rw [show ConsultaController.parseDataHora "01/01/2030" "0900" =
          some 31558140 from by decide] at ht
      obtain rfl := Option.some.inj ht
      decide)
    (by decide)

/-! ### Store invariant lemmas (towards claim C3) -/

/-- The store's appointments distribute over a cons entry. -/
theorem allConsultas_cons (k : String) (l : List Consulta) (rest : Store) :
    allConsultas ((k, l) :: rest) = l ++ allConsultas rest := rfl

/-- A later clock only turns future appointments into past ones. -/
theorem isConsultaPassada_mono {n n' : Now} {c : Consulta}
    (h : n.instant ≤ n'.instant) (hp : c.isConsultaPassada n = true) :
    c.isConsultaPassada n' = true := by
  unfold Consulta.isConsultaPassada at hp ⊢
  by_cases h1 : c.dataHoraInicial ≤ n.instant
  · rw [if_pos (le_trans h1 h)]
  · rw [if_neg h1] at hp
    exact absurd hp (by simp)

/-- Advancing the clock can only shrink the number of future appointments a
patient has in the store. -/
theorem futureCount_mono {n n' : Now} (h : n.instant ≤ n'.instant)
    (s : Store) (cpf : String) : futureCount s n' cpf ≤ futureCount s n cpf := by
  unfold futureCount
  refine List.countP_mono_left ?_
  intro c _ hc
  simp only [Bool.and_eq_true, decide_eq_true_eq, Bool.not_eq_true'] at hc ⊢
  refine ⟨hc.1, ?_⟩
  cases hpn : c.isConsultaPassada n
  · rfl
  · exact absurd (isConsultaPassada_mono h hpn) (by simp [hc.2])

/-- Adding one appointment adds exactly its own contribution to any count
over the store. -/
theorem countP_allConsultas_storeAdd (s : Store) (c : Consulta)
    (p : Consulta → Bool) :
    (allConsultas (ConsultaController.storeAdd s c)).countP p =
      (allConsultas s).countP p + (if p c then 1 else 0) := by
  induction s with
  | nil =>
    simp [ConsultaController.storeAdd, allConsultas, List.countP_cons]
  | cons kl rest ih =>
    obtain ⟨k, l⟩ := kl
    unfold ConsultaController.storeAdd
    by_cases hk : k = c.cpf_paciente
    · rw [if_pos hk]
      simp only [allConsultas_cons, List.countP_append, List.countP_cons,
        List.countP_nil]
      omega
    · rw [if_neg hk, allConsultas_cons, allConsultas_cons, List.countP_append,
        List.countP_append, ih]
      omega

/-- A key is absent from the map exactly when lookup misses. -/
theorem storeLookup_eq_none {s : Store} {cpf : String} :
    ConsultaController.storeLookup s cpf = none ↔ cpf ∉ s.map Prod.fst := by
  induction s with
  | nil => simp [ConsultaController.storeLookup]
  | cons kl rest ih =>
    obtain ⟨k, l⟩ := kl
    unfold ConsultaController.storeLookup
    by_cases hk : k = cpf
    · subst hk
      simp
    · rw [if_neg hk]
      simp only [List.map_cons, List.mem_cons, ih]
      constructor
      · intro hm h
        rcases h with h | h
        · exact hk h.symm
        · exact hm h
      · intro hm h
        exact hm (Or.inr h)

/-- A successful lookup returns an actual entry of the map. -/
theorem storeLookup_mem {s : Store} {cpf : String} {l : List Consulta}
    (h : ConsultaController.storeLookup s cpf = some l) : (cpf, l) ∈ s := by
  induction s with
  | nil => exact absurd h (by simp [ConsultaController.storeLookup])
  | cons kl rest ih =>
    obtain ⟨k, l0⟩ := kl
    rw [ConsultaController.storeLookup] at h
    by_cases hk : k = cpf
    · rw [if_pos hk] at h
      obtain rfl := Option.some.inj h
      subst hk
      exact List.mem_cons_self _ _
    · rw [if_neg hk] at h
      exact List.mem_cons_of_mem _ (ih h)

/-- Keys that `storeAdd` yields come from the store or are the new key. -/
theorem mem_keys_storeAdd {s : Store} {c : Consulta} {x : String}
    (h : x ∈ (ConsultaController.storeAdd s c).map Prod.fst) :
    x ∈ s.map Prod.fst ∨ x = c.cpf_paciente := by
  induction s with
  | nil =>
    simp [ConsultaController.storeAdd] at h
    exact Or.inr h
  | cons kl rest ih =>
    obtain ⟨k, l⟩ := kl
    unfold ConsultaController.storeAdd at h
    by_cases hk : k = c.cpf_paciente
    · rw [if_pos hk] at h
      rw [List.map_cons, List.mem_cons] at h
      rcases h with h | h
      · exact Or.inl (by rw [List.map_cons, List.mem_cons]; exact Or.inl h)
      · exact Or.inl (by rw [List.map_cons, List.mem_cons]; exact Or.inr h)
    · rw [if_neg hk] at h
      rw [List.map_cons, List.mem_cons] at h
      rcases h with h | h
      · exact Or.inl (by rw [List.map_cons, List.mem_cons]; exact Or.inl h)
      · rcases ih h with h' | h'
        · exact Or.inl (by rw [List.map_cons, List.mem_cons]; exact Or.inr h')
        · exact Or.inr h'

/-- `storeAdd` keeps the map's keys pairwise distinct. -/
theorem keysNodup_storeAdd {s : Store} (c : Consulta) (h : keysNodup s) :
    keysNodup (ConsultaController.storeAdd s c) := by
  induction s with
  | nil => simp [ConsultaController.storeAdd, keysNodup]
  | cons kl rest ih =>
    obtain ⟨k, l⟩ := kl
    unfold keysNodup at h ⊢
    unfold ConsultaController.storeAdd
    rw [List.map_cons, List.nodup_cons] at h
    by_cases hk : k = c.cpf_paciente
    · rw [if_pos hk, List.map_cons, List.nodup_cons]
      exact h
    · rw [if_neg hk, List.map_cons, List.nodup_cons]
      refine ⟨fun hm => ?_, ih h.2⟩
      rcases mem_keys_storeAdd hm with h' | h'
      · exact h.1 h'
      · exact hk h'

/-- `storeAdd` keeps every appointment under its own patient's key. -/
theorem wellKeyed_storeAdd {s : Store} {c : Consulta} (h : wellKeyed s) :
    wellKeyed (ConsultaController.storeAdd s c) := by
  induction s with
  | nil =>
    intro p hp c' hc'
    simp [ConsultaController.storeAdd] at hp
    subst hp
    simp at hc'
    subst hc'
    rfl
  | cons kl rest ih =>
    obtain ⟨k, l⟩ := kl
    unfold ConsultaController.storeAdd
    have htail : wellKeyed rest := fun p hp => h p (List.mem_cons_of_mem _ hp)
    by_cases hk : k = c.cpf_paciente
    · rw [if_pos hk]
      intro p hp c' hc'
      rcases List.mem_cons.mp hp with h' | h'
      · subst h'
        rcases List.mem_append.mp hc' with h'' | h''
        · exact h (k, l) (List.mem_cons_self _ _) c' h''
        · simp at h''
          subst h''
          exact hk.symm
      · exact h p (List.mem_cons_of_mem _ h') c' hc'
    · rw [if_neg hk]
      intro p hp c' hc'
      rcases List.mem_cons.mp hp with h' | h'
      · subst h'
        exact h (k, l) (List.mem_cons_self _ _) c' hc'
      · exact ih htail p h' c' hc'

/-- A patient absent from a well-keyed store has no future appointments
counted. -/
theorem futureCount_eq_zero_of_not_mem {s : Store} {cpf : String}
    (hw : wellKeyed s) (hmem : cpf ∉ s.map Prod.fst) (n : Now) :
    futureCount s n cpf = 0 := by
  unfold futureCount
  rw [List.countP_eq_zero]
  intro c hc
  unfold allConsultas at hc
  rw [List.mem_flatten] at hc
  obtain ⟨l, hl, hcl⟩ := hc
  rw [List.mem_map] at hl
  obtain ⟨p, hps, rfl⟩ := hl
  have hkey := hw p hps c hcl
  have hne : c.cpf_paciente ≠ cpf := by
    intro heq
    apply hmem
    rw [← heq, hkey]
    exact List.mem_map_of_mem Prod.fst hps
  simp [hne]

/-- In a well-keyed duplicate-free store, a patient's future count is the
future count of the patient's own list. -/
theorem futureCount_eq_countP_lookup {s : Store} {cpf : String}
    {l : List Consulta} (hw : wellKeyed s) (hn : keysNodup s)
    (hl : ConsultaController.storeLookup s cpf = some l) (n : Now) :
    futureCount s n cpf = l.countP (fun c => ! c.isConsultaPassada n) := by
  induction s with
  | nil => exact absurd hl (by simp [ConsultaController.storeLookup])
  | cons kl rest ih =>
    obtain ⟨k, l0⟩ := kl
    rw [ConsultaController.storeLookup] at hl
    have htail : wellKeyed rest := fun p hp => hw p (List.mem_cons_of_mem _ hp)
    unfold keysNodup at hn
    rw [List.map_cons, List.nodup_cons] at hn
    unfold futureCount
    rw [allConsultas_cons, List.countP_append]
    by_cases hk : k = cpf
    · rw [if_pos hk] at hl
      obtain rfl := Option.some.inj hl
      subst hk
      have h1 : (l0.countP fun c => decide (c.cpf_paciente = k) &&
          ! c.isConsultaPassada n) = l0.countP fun c => ! c.isConsultaPassada n := by
        refine List.countP_congr ?_
        intro c hc
        have := hw (k, l0) (List.mem_cons_self _ _) c hc
        simp [this]
      have h2 : futureCount rest n k = 0 :=
        futureCount_eq_zero_of_not_mem htail hn.1 n
      unfold futureCount at h2
      rw [h1, h2]
      omega
    · rw [if_neg hk] at hl
      have h1 : (l0.countP fun c => decide (c.cpf_paciente = cpf) &&
          ! c.isConsultaPassada n) = 0 := by
        rw [List.countP_eq_zero]
        intro c hc
        have := hw (k, l0) (List.mem_cons_self _ _) c hc
        simp [this, hk]
      have h2 := ih htail hn.2 hl
      unfold futureCount at h2
      rw [h1, h2]
      omega

/-- When the controller sees no future appointment for a patient, the
patient's own list counts none. -/
theorem countP_eq_zero_of_hasAg_false {s : Store} {n : Now} {cpf : String}
    {l : List Consulta}
    (h : ConsultaController.hasAgendamentosFuturos s n cpf = false)
    (hl : ConsultaController.storeLookup s cpf = some l) :
    l.countP (fun c => ! c.isConsultaPassada n) = 0 := by
  unfold ConsultaController.hasAgendamentosFuturos at h
  rw [hl] at h
  rw [List.countP_eq_zero]
  intro c hc
  rw [List.any_eq_false] at h
  exact h c hc

/-- A successful `addConsulta` preserves the store invariant under a clock
that does not run backwards. -/
theorem storeInv_add {s s' : Store} {n n' : Now} {c : Consulta}
    (hw : wellKeyed s) (hn : keysNodup s)
    (hinv : ∀ cpf, futureCount s n cpf ≤ 1) (hmono : n.instant ≤ n'.instant)
    (hadd : ConsultaController.addConsulta s n' c = (RResult.ok, s')) :
    wellKeyed s' ∧ keysNodup s' ∧ ∀ cpf, futureCount s' n' cpf ≤ 1 := by
  unfold ConsultaController.addConsulta at hadd
  by_cases hAg : ConsultaController.hasAgendamentosFuturos s n' c.cpf_paciente = true
  · rw [if_pos hAg] at hadd
    exact absurd (congrArg Prod.fst hadd) (by simp)
  · rw [if_neg hAg] at hadd
    by_cases hSo : ConsultaController.isSobreposta s c = true
    · rw [if_pos hSo] at hadd
      exact absurd (congrArg Prod.fst hadd) (by simp)
    · rw [if_neg hSo] at hadd
      have hs' : s' = ConsultaController.storeAdd s c :=
        ((Prod.mk.injEq _ _ _ _).mp hadd).2.symm
      subst hs'
      refine ⟨wellKeyed_storeAdd hw, keysNodup_storeAdd c hn, fun cpf => ?_⟩
      have hsum := countP_allConsultas_storeAdd s c
        (fun x => decide (x.cpf_paciente = cpf) && ! x.isConsultaPassada n')
      by_cases hc : c.cpf_paciente = cpf
      · subst hc
        have h0 : futureCount s n' c.cpf_paciente = 0 := by
          cases hl : ConsultaController.storeLookup s c.cpf_paciente with
          | none =>
            exact futureCount_eq_zero_of_not_mem hw (storeLookup_eq_none.mp hl) n'
          | some l =>
            rw [futureCount_eq_countP_lookup hw hn hl n']
            exact countP_eq_zero_of_hasAg_false (Bool.not_eq_true _ ▸ hAg :
              ConsultaController.hasAgendamentosFuturos s n' c.cpf_paciente = false) hl
        unfold futureCount at h0 ⊢
        rw [hsum, h0]
        split <;> omega
      · unfold futureCount
        rw [hsum]
        have hpc : (decide (c.cpf_paciente = cpf) && ! c.isConsultaPassada n') = false := by
          simp [hc]
        have h1 := futureCount_mono hmono s cpf
        have h2 := hinv cpf
        unfold futureCount at h1 h2
        simp only [hpc, Bool.false_eq_true, if_false]
        omega

/-- Inversion of a successful `removeConsulta`: the patient's list exists,
a first match was spliced out, and the store was updated at that key. -/
theorem removeConsulta_ok_inv {s s' : Store} {n : Now} {cpf data hora : String}
    (h : ConsultaController.removeConsulta s n cpf data hora = (RResult.ok, s')) :
    ∃ l l', ConsultaController.storeLookup s cpf = some l ∧
      ConsultaController.removeFirst (ConsultaController.matchesConsulta data hora) l =
        some l' ∧
      s' = ConsultaController.storeSet s cpf l' := by
  unfold ConsultaController.removeConsulta at h
  cases hl : ConsultaController.storeLookup s cpf with
  | none =>
    rw [hl] at h
    exact absurd (congrArg Prod.fst h) (by simp)
  | some l =>
    rw [hl] at h
    dsimp only at h
    cases hrf : ConsultaController.removeFirst
        (ConsultaController.matchesConsulta data hora) l with
    | none =>
      rw [hrf] at h
      cases hp : ConsultaController.parseDataHora data hora with
      | none =>
        rw [hp] at h
        exact absurd (congrArg Prod.fst h) (by simp)
      | some t =>
        rw [hp] at h
        dsimp only at h
        split at h <;> exact absurd (congrArg Prod.fst h) (by simp)
    | some l' =>
      rw [hrf] at h
      cases hp : ConsultaController.parseDataHora data hora with
      | none =>
        rw [hp] at h
        exact ⟨l, l', rfl, hrf, ((Prod.mk.injEq _ _ _ _).mp h).2.symm⟩
      | some t =>
        rw [hp] at h
        dsimp only at h
        split at h
        · exact absurd (congrArg Prod.fst h) (by simp)
        · exact ⟨l, l', rfl, hrf, ((Prod.mk.injEq _ _ _ _).mp h).2.symm⟩

/-- Splicing the first match yields a sublist. -/
theorem removeFirst_sublist {p : Consulta → Bool} {l l' : List Consulta}
    (h : ConsultaController.removeFirst p l = some l') : List.Sublist l' l := by
  induction l generalizing l' with
  | nil => exact absurd h (by simp [ConsultaController.removeFirst])
  | cons c rest ih =>
    unfold ConsultaController.removeFirst at h
    split_ifs at h with hc
    · obtain rfl := Option.some.inj h
      exact List.sublist_cons_self c rest
    · cases hrf : ConsultaController.removeFirst p rest with
      | none =>
        rw [hrf] at h
        exact absurd h (by simp)
      | some l'' =>
        rw [hrf] at h
        simp only [Option.map_some'] at h
        obtain rfl := Option.some.inj h
        exact (ih hrf).cons₂ c

/-- Replacing one key's list does not change the map's keys. -/
theorem keys_storeSet (s : Store) (cpf : String) (l' : List Consulta) :
    (ConsultaController.storeSet s cpf l').map Prod.fst = s.map Prod.fst := by
  induction s with
  | nil => rfl
  | cons kl rest ih =>
    obtain ⟨k, l0⟩ := kl
    unfold ConsultaController.storeSet
    by_cases hk : k = cpf
    · rw [if_pos hk]
      simp
    · rw [if_neg hk]
      simp [ih]

/-- Replacing a key's list by appointments of that same patient keeps the
store well keyed. -/
theorem wellKeyed_storeSet {s : Store} {cpf : String} {l' : List Consulta}
    (hw : wellKeyed s) (hl' : ∀ c ∈ l', c.cpf_paciente = cpf) :
    wellKeyed (ConsultaController.storeSet s cpf l') := by
  induction s with
  | nil =>
    intro p hp
    exact absurd hp (List.not_mem_nil p)
  | cons kl rest ih =>
    obtain ⟨k, l0⟩ := kl
    unfold ConsultaController.storeSet
    have htail : wellKeyed rest := fun p hp => hw p (List.mem_cons_of_mem _ hp)
    by_cases hk : k = cpf
    · rw [if_pos hk]
      intro p hp c hc
      rcases List.mem_cons.mp hp with h' | h'
      · subst h'
        rw [hl' c hc, hk]
      · exact hw p (List.mem_cons_of_mem _ h') c hc
    · rw [if_neg hk]
      intro p hp c hc
      rcases List.mem_cons.mp hp with h' | h'
      · subst h'
        exact hw (k, l0) (List.mem_cons_self _ _) c hc
      · exact ih htail p h' c hc

/-- Replacing a key's list by a sublist cannot increase any count over the
store. -/
theorem countP_storeSet_le {s : Store} {cpf : String} {l l' : List Consulta}
    (hl : ConsultaController.storeLookup s cpf = some l) (hsub : List.Sublist l' l)
    (p : Consulta → Bool) :
    (allConsultas (ConsultaController.storeSet s cpf l')).countP p ≤
      (allConsultas s).countP p := by
  induction s with
  | nil => simp [ConsultaController.storeSet]
  | cons kl rest ih =>
    obtain ⟨k, l0⟩ := kl
    unfold ConsultaController.storeSet
    rw [ConsultaController.storeLookup] at hl
    by_cases hk : k = cpf
    · rw [if_pos hk] at hl ⊢
      obtain rfl := Option.some.inj hl
      rw [allConsultas_cons, allConsultas_cons, List.countP_append,
        List.countP_append]
      have := hsub.countP_le p
      omega
    · rw [if_neg hk] at hl ⊢
      rw [allConsultas_cons, allConsultas_cons, List.countP_append,
        List.countP_append]
      have := ih hl
      omega

/-- A successful `removeConsulta` preserves the store invariant under a
clock that does not run backwards. -/
theorem storeInv_remove {s s' : Store} {n n' : Now} {cpf data hora : String}
    (hw : wellKeyed s) (hn : keysNodup s)
    (hinv : ∀ x, futureCount s n x ≤ 1) (hmono : n.instant ≤ n'.instant)
    (hrem : ConsultaController.removeConsulta s n' cpf data hora =
      (RResult.ok, s')) :
    wellKeyed s' ∧ keysNodup s' ∧ ∀ x, futureCount s' n' x ≤ 1 := by
  obtain ⟨l, l', hl, hrf, rfl⟩ := removeConsulta_ok_inv hrem
  have hsub := removeFirst_sublist hrf
  have hkey : ∀ c ∈ l, c.cpf_paciente = cpf :=
    fun c hc => hw (cpf, l) (storeLookup_mem hl) c hc
  refine ⟨wellKeyed_storeSet hw (fun c hc => hkey c (hsub.subset hc)), ?_, fun x => ?_⟩
  · unfold keysNodup
    rw [keys_storeSet]
    exact hn
  · have h1 : futureCount (ConsultaController.storeSet s cpf l') n' x ≤
        futureCount s n' x := countP_storeSet_le hl hsub _
    have h2 := futureCount_mono hmono s x
    have h3 := hinv x
    omega

/-- Every reachable store is well keyed, has distinct keys, and grants each
patient at most one future appointment. -/
theorem reachable_storeInv {n : Now} {s : Store} (h : Reachable n s) :
    wellKeyed s ∧ keysNodup s ∧ ∀ cpf, futureCount s n cpf ≤ 1 := by
  induction h with
  | init n =>
    refine ⟨fun p hp => absurd hp (List.not_mem_nil p), List.nodup_nil,
      fun cpf => ?_⟩
    simp [futureCount, allConsultas]
  | add _ hmono hadd ih => exact storeInv_add ih.1 ih.2.1 ih.2.2 hmono hadd
  | remove _ hmono hrem ih => exact storeInv_remove ih.1 ih.2.1 ih.2.2 hmono hrem

/-- C3: after every sequence of successful `addConsulta` and
`removeConsulta` operations from the empty store (under a clock that never
runs backwards) each patient identifier has at most one stored appointment
that `isConsultaPassada` classifies as not past; and whenever a patient
already has a future appointment, `addConsulta` fails with the
double-booking error and stores nothing. -/
theorem unique_future_appointment :
    (∀ (n : Now) (s : Store), Reachable n s → ∀ cpf, futureCount s n cpf ≤ 1)
  ∧ (∀ (s : Store) (n : Now) (c : Consulta),
      ConsultaController.hasAgendamentosFuturos s n c.cpf_paciente = true →
      ConsultaController.addConsulta s n c =
        (.err ErrorCodes.ERR_CONSULTA_DUPLA, s)) := by
  constructor
  · intro n s h cpf
    exact (reachable_storeInv h).2.2 cpf
  · intro s n c h
    unfold ConsultaController.addConsulta
    rw [if_pos h]

/-- C3 witness: the invariant evaluated on the store reached by one
successful `addConsulta` of a 2030-01-01 09:00 appointment at clock
1970-01-01 00:00, and the double-booking rejection of a second appointment
for the same patient on that store. -/
theorem unique_future_appointment_witness :
    futureCount [("57219947038", [⟨"57219947038", ⟨2030, 1, 1⟩, 540, 570⟩])]
        ⟨0, 0⟩ "57219947038" ≤ 1 ∧
    ConsultaController.addConsulta
        [("57219947038", [⟨"57219947038", ⟨2030, 1, 1⟩, 540, 570⟩])] ⟨0, 0⟩
        ⟨"57219947038", ⟨2030, 1, 1⟩, 600, 660⟩ =
      (.err ErrorCodes.ERR_CONSULTA_DUPLA,
        [("57219947038", [⟨"57219947038", ⟨2030, 1, 1⟩, 540, 570⟩])]) :=
  ⟨unique_future_appointment.1 ⟨0, 0⟩
      [("57219947038", [⟨"57219947038", ⟨2030, 1, 1⟩, 540, 570⟩])]
      (@Reachable.add ⟨0, 0⟩ ⟨0, 0⟩ []
        [("57219947038", [⟨"57219947038", ⟨2030, 1, 1⟩, 540, 570⟩])]
        ⟨"57219947038", ⟨2030, 1, 1⟩, 540, 570⟩ (Reachable.init ⟨0, 0⟩)
        (le_refl _) (by decide))
      "57219947038",
   unique_future_appointment.2
      [("57219947038", [⟨"57219947038", ⟨2030, 1, 1⟩, 540, 570⟩])] ⟨0, 0⟩
      ⟨"57219947038", ⟨2030, 1, 1⟩, 600, 660⟩ (by decide)⟩

/-- C9 counterexample: the claim says `clear()` resets all four builder
fields, but the source's `clear` leaves the patient identifier untouched:
after `setCpf` the cleared builder still holds the identifier. -/
theorem clear_keeps_cpf :
    ((ConsultaBuilder.setCpf ConsultaBuilder.empty "57219947038").2.clear).cpf_paciente =
      some "57219947038" := by
  decide

/-- C9 (amended): `clear()` resets the date, the start time and the end time
to unset while leaving the patient identifier as it was; a second
consecutive `clear()` changes nothing; and `build()` right after `clear()`
always fails with the incomplete-appointment error, for every prior builder
state. -/
theorem clear_spec (b : ConsultaBuilder) :
    b.clear.data_consulta = none ∧
    b.clear.hora_inicial = none ∧
    b.clear.hora_final = none ∧
    b.clear.cpf_paciente = b.cpf_paciente ∧
    b.clear.clear = b.clear ∧
    b.clear.build = (.err ErrorCodes.ERR_CONSULTA_INCOMPLETA, b.clear) := by
  refine ⟨rfl, rfl, rfl, rfl, rfl, ?_⟩
  cases h : b.cpf_paciente <;> simp [ConsultaBuilder.build, ConsultaBuilder.clear, h]

end Desafio
